import Mathlib

/-!
Verification of the core of the gallery server (`server.py`, "Gallery v0.2.4").

The Python source is shallowly embedded: pure helpers become Lean functions on
`String`/`List Char`/`Int`; the in-memory metadata cache and the on-disk
derivative cache become explicit state passing; filesystem and external-tool
effects (stat, mtime, the exiftool extractor, the Pillow codec, the SHA-1
digest) are supplied as explicit parameters of the model, since the spec
declares them external collaborators.  Python string operations are modelled
for the ASCII range (all data handled by the claims is ASCII).
-/

/-! ### Python string primitives (ASCII model) -/

/-- Python `str.lower` (ASCII model): lower-case every character. -/
def pyLower (s : String) : String := ⟨s.data.map Char.toLower⟩

/-- Python `str.upper` (ASCII model): upper-case every character. -/
def pyUpper (s : String) : String := ⟨s.data.map Char.toUpper⟩

/-- The whitespace characters stripped by Python `str.strip()` (ASCII range). -/
def pyIsSpace (c : Char) : Bool :=
  c = ' ' || c = '\t' || c = '\n' || c = '\r' || c = '\x0b' || c = '\x0c'

/-- Python `str.strip()` on a character list: drop whitespace at both ends. -/
def pyStripL (l : List Char) : List Char :=
  ((l.dropWhile pyIsSpace).reverse.dropWhile pyIsSpace).reverse

/-- Python `str.strip()`. -/
def pyStrip (s : String) : String := ⟨pyStripL s.data⟩

/-- Python `str.isalpha()` (ASCII model): nonempty and all letters. -/
def pyIsAlpha (s : String) : Bool := !s.data.isEmpty && s.data.all Char.isAlpha

/-- Worker for Python `str.title()`: upper-case a cased character that follows
a non-cased one, lower-case the rest.  `prev` records whether the previous
character was cased (ASCII: a letter). -/
def titleGo : Bool → List Char → List Char
  | _, [] => []
  | prev, c :: cs =>
    if c.isAlpha then (if prev then c.toLower else c.toUpper) :: titleGo true cs
    else c :: titleGo false cs

/-- Python `str.title()` (ASCII model). -/
def pyTitle (s : String) : String := ⟨titleGo false s.data⟩

/-- Membership in the control-character class `[\r\x00-\x08\x0b\x0c\x0e-\x1f]`
replaced by spaces in `summarize_meta` (codes 0-8 and 11-31). -/
def isStrippedCtrl (c : Char) : Bool := c.toNat ≤ 8 || (11 ≤ c.toNat && c.toNat ≤ 31)

/-- `re.sub(r"[\r\x00-\x08\x0b\x0c\x0e-\x1f]", " ", v)` from `summarize_meta`. -/
def stripCtrl (s : String) : String :=
  ⟨s.data.map (fun c => if isStrippedCtrl c then ' ' else c)⟩

/-- Worker for Python `str.split(sep)`; `acc` holds the current chunk reversed. -/
def pySplitGo (sep : Char) : List Char → List Char → List (List Char)
  | acc, [] => [acc.reverse]
  | acc, c :: cs =>
    if c = sep then acc.reverse :: pySplitGo sep [] cs else pySplitGo sep (c :: acc) cs

/-- Python `str.split(sep)` for a one-character separator
(`"".split(",") = [""]`, like the source's keyword splitting). -/
def pySplitStr (s : String) (sep : Char) : List String :=
  (pySplitGo sep [] s.data).map fun l => ⟨l⟩

/-- Python `str.startswith(pre)`. -/
def pyStartsWith (s pre : String) : Bool := pre.data.isPrefixOf s.data

/-- Python truthiness of `a and b` for strings: `a` when `a` is falsy
(empty), else `b`. -/
def pyAndStr (a b : String) : String := if a = "" then a else b

/-! ### Static lookup tables (`US_ABBR_TO_FULL`, `US_FULL_TO_ABBR`) -/

/-- The `US_ABBR_TO_FULL` table from the source, as an association list
(Python dict with unique keys). -/
def US_ABBR_TO_FULL : List (String × String) :=
  [("AL", "Alabama"), ("AK", "Alaska"), ("AZ", "Arizona"), ("AR", "Arkansas"),
   ("CA", "California"), ("CO", "Colorado"), ("CT", "Connecticut"), ("DE", "Delaware"),
   ("FL", "Florida"), ("GA", "Georgia"), ("HI", "Hawaii"), ("ID", "Idaho"),
   ("IL", "Illinois"), ("IN", "Indiana"), ("IA", "Iowa"), ("KS", "Kansas"),
   ("KY", "Kentucky"), ("LA", "Louisiana"), ("ME", "Maine"), ("MD", "Maryland"),
   ("MA", "Massachusetts"), ("MI", "Michigan"), ("MN", "Minnesota"), ("MS", "Mississippi"),
   ("MO", "Missouri"), ("MT", "Montana"), ("NE", "Nebraska"), ("NV", "Nevada"),
   ("NH", "New Hampshire"), ("NJ", "New Jersey"), ("NM", "New Mexico"), ("NY", "New York"),
   ("NC", "North Carolina"), ("ND", "North Dakota"), ("OH", "Ohio"), ("OK", "Oklahoma"),
   ("OR", "Oregon"), ("PA", "Pennsylvania"), ("RI", "Rhode Island"), ("SC", "South Carolina"),
   ("SD", "South Dakota"), ("TN", "Tennessee"), ("TX", "Texas"), ("UT", "Utah"),
   ("VT", "Vermont"), ("VA", "Virginia"), ("WA", "Washington"), ("WV", "West Virginia"),
   ("WI", "Wisconsin"), ("WY", "Wyoming")]

/-- `US_FULL_TO_ABBR = {v.lower(): k for k, v in US_ABBR_TO_FULL.items()}`. -/
def US_FULL_TO_ABBR : List (String × String) :=
  US_ABBR_TO_FULL.map fun kv => (pyLower kv.2, kv.1)

/-! ### Metadata records and the summarizer -/

/-- An exiftool `Keywords` value: either a single string or a list of strings. -/
inductive KwVal where
  | strVal (s : String)
  | listVal (xs : List String)
deriving DecidableEq

/-- The raw metadata record fields the claims inspect.  A `none` field models
an absent dictionary key.  Numeric fields are modelled as integers (image
dimensions are integral; `safe_float` is the identity on them). -/
structure Meta where
  State : Option String := none
  ProvinceState : Option String := none
  Keywords : Option KwVal := none
  ImageWidth : Option Int := none
  ImageHeight : Option Int := none
deriving DecidableEq

/-- Python `if not meta:` — the record is the empty dictionary. -/
def Meta.isEmptyDict (m : Meta) : Bool :=
  m.State.isNone && m.ProvinceState.isNone && m.Keywords.isNone &&
  m.ImageWidth.isNone && m.ImageHeight.isNone

/-- The summary dictionary built by `summarize_meta`: whitelisted fields plus
the derived `_orientation`, `_state`, `_season` tags (`none` = key absent). -/
structure Summary where
  State : Option String := none
  ProvinceState : Option String := none
  Keywords : Option KwVal := none
  ImageWidth : Option Int := none
  ImageHeight : Option Int := none
  orientation : Option String := none
  state : Option String := none
  season : Option String := none
  pathRel : Option String := none
  name : Option String := none
deriving DecidableEq

/-- One iteration of the key loop in `normalize_state_full`: `none` means the
loop continues to the next key (the raw value was absent or falsy); `some r`
means the function returns `r`. -/
def normFromRaw (raw : Option String) : Option String :=
  match raw with
  | none => none
  | some r =>
    if r = "" then none
    else
      let s := pyStrip r
      if s.length = 2 && pyIsAlpha s then
        let abbr := pyUpper s
        some ((US_ABBR_TO_FULL.lookup abbr).getD abbr)
      else
        let low := pyLower s
        match US_FULL_TO_ABBR.lookup low with
        | some a => some (if s ≠ "" then pyAndStr a (pyTitle s) else s)
        | none => some (pyTitle s)

/-- `normalize_state_full`: prefer the `State` key, then `Province-State`. -/
def normalize_state_full (st pv : Option String) : Option String :=
  match normFromRaw st with
  | some r => some r
  | none => normFromRaw pv

/-- `kw = meta.get("Keywords") or ""` — an absent or falsy value (empty string
or empty list) degrades to the empty string. -/
def kwEff (kw : Option KwVal) : KwVal :=
  match kw with
  | none => .strVal ""
  | some (.listVal []) => .strVal ""
  | some (.strVal "") => .strVal ""
  | some v => v

/-- The `kw_list` of `parse_season`: a list value is used as is, a string is
split on commas and each piece stripped. -/
def kwListOf (kw : Option KwVal) : List String :=
  match kwEff kw with
  | .listVal xs => xs
  | .strVal s => (pySplitStr s ',').map pyStrip

/-- The body of the keyword loop in `parse_season`: a keyword whose
lower-casing starts with `"season:"` yields the text after the colon, with
`"fall"` canonicalized to `"autumn"`. -/
def seasonOfKw (k : String) : Option String :=
  let kLow := pyLower k
  if pyStartsWith kLow "season:" then
    let v : String := ⟨kLow.data.drop 7⟩
    some (if v = "fall" then "autumn" else v)
  else none

/-- `parse_season`: first keyword matching the `season:` convention wins. -/
def parse_season (kw : Option KwVal) : Option String :=
  (kwListOf kw).findSome? seasonOfKw

/-- String-field processing of `summarize_meta`: control characters replaced
by spaces, then stripped. -/
def summStr (v : Option String) : Option String :=
  v.map fun s => pyStrip (stripCtrl s)

/-- Keywords processing of `summarize_meta`: only string values get the
control-character cleanup; lists pass through unchanged. -/
def summKeywords (kw : Option KwVal) : Option KwVal :=
  match kw with
  | none => none
  | some (.strVal s) => some (.strVal (pyStrip (stripCtrl s)))
  | some (.listVal xs) => some (.listVal xs)

/-- `summarize_meta`: whitelisted fields, orientation from the dimensions,
then `_state` and `_season` derived from the cleaned fields.  A falsy (empty)
derived tag is not stored, exactly as `if st:` / `if ss:` in the source. -/
def summarize_meta (m : Meta) : Summary :=
  if m.isEmptyDict then {} else
  let st := summStr m.State
  let pv := summStr m.ProvinceState
  let kw := summKeywords m.Keywords
  let w := m.ImageWidth
  let h := m.ImageHeight
  let orient : Option String :=
    match w, h with
    | some wv, some hv =>
      if wv ≠ 0 ∧ hv ≠ 0 then
        some (if hv > wv then "portrait" else if wv > hv then "landscape" else "square")
      else none
    | _, _ => none
  let stateV : Option String :=
    match normalize_state_full st pv with
    | some s => if s = "" then none else some s
    | none => none
  let seasonV : Option String :=
    match parse_season kw with
    | some s => if s = "" then none else some s
    | none => none
  { State := st, ProvinceState := pv, Keywords := kw, ImageWidth := w, ImageHeight := h,
    orientation := orient, state := stateV, season := seasonV }


/-! ### The metadata cache (`MetaCache`) -/

/-- A `MetaCacheItem`: the raw record plus the modification time observed at
capture and the capture timestamp.  Times are modelled as integers. -/
structure MetaCacheItem where
  mtime : Int
  data : Meta
  ts : Int
deriving DecidableEq

/-- The ambient effects `MetaCache.get`/`set` perform: `Path(path).resolve()`,
`os.path.getmtime` (`none` models `FileNotFoundError`), and `time.time()`. -/
structure MetaCacheEnv where
  resolvePath : String → String
  getmtime : String → Option Int
  now : Int

/-- The cache state: the configured ttl and the `_data` mapping, an
association list with unique keys (a Python dict). -/
structure MetaCache where
  ttl : Nat
  data : List (String × MetaCacheItem)
deriving DecidableEq

/-- `MetaCache.__init__`: `self.ttl = max(0, int(ttl))`, empty mapping. -/
def MetaCache.init (ttl : Int) : MetaCache := ⟨ttl.toNat, []⟩

/-- `self._data.pop(p, None)`: remove the entry keyed `p`. -/
def dictPop (d : List (String × MetaCacheItem)) (k : String) :
    List (String × MetaCacheItem) :=
  d.filter fun kv => kv.1 != k

/-- `MetaCache.get`: resolve the path, look the entry up, then validate
existence, mtime equality and the ttl, evicting on any failure.  Returns the
result together with the post-call cache state. -/
def MetaCache.get (env : MetaCacheEnv) (c : MetaCache) (path : String) :
    Option Meta × MetaCache :=
  let p := env.resolvePath path
  match c.data.lookup p with
  | none => (none, c)
  | some item =>
    match env.getmtime p with
    | none => (none, ⟨c.ttl, dictPop c.data p⟩)
    | some mtime =>
      if mtime ≠ item.mtime then (none, ⟨c.ttl, dictPop c.data p⟩)
      else if c.ttl ≠ 0 ∧ env.now - item.ts > (c.ttl : Int) then
        (none, ⟨c.ttl, dictPop c.data p⟩)
      else (some item.data, c)

/-- `MetaCache.set`: re-stat the file; a stat failure silently drops the
write, otherwise the entry is stored under the resolved path. -/
def MetaCache.set (env : MetaCacheEnv) (c : MetaCache) (path : String) (d : Meta) :
    MetaCache :=
  let p := env.resolvePath path
  match env.getmtime p with
  | none => c
  | some mtime => ⟨c.ttl, (p, ⟨mtime, d, env.now⟩) :: dictPop c.data p⟩

/-! ### The ignore/dedup scanner (`scan_images`) -/

/-- One file yielded by the `os.walk` traversal of `scan_images`, carrying
the data the loop body consumes: the resolved absolute path string
(`str(p.resolve())`, falling back to `absolute()`), the `(st_ino, st_dev)`
pair when `os.stat` succeeds (`none` models a raised exception), and the
evaluations of `should_ignore p` and `is_image p` on the file. -/
structure ScanEntry where
  resolved : String
  stat : Option (Nat × Nat)
  ignored : Bool
  image : Bool
deriving DecidableEq

/-- The loop state of `scan_images`: collected `files`, the `seen` set of
lower-cased resolved paths and the `seen_inode` set. -/
structure ScanState where
  files : List String
  seen : List String
  seenInode : List (Nat × Nat)
deriving DecidableEq

/-- The body of the scanning loop for one file. -/
def scanStep (s : ScanState) (e : ScanEntry) : ScanState :=
  if e.ignored || !e.image then s
  else
    let key := pyLower e.resolved
    if key ∈ s.seen then s
    else
      match e.stat with
      | some tup =>
        if tup ∈ s.seenInode then s
        else ⟨s.files ++ [e.resolved], key :: s.seen, tup :: s.seenInode⟩
      | none => ⟨s.files ++ [e.resolved], key :: s.seen, s.seenInode⟩

/-- `scan_images`: fold the loop body over the walked entries, then
`files.sort(key=lambda p: str(p).lower())`. -/
def scan_images (entries : List ScanEntry) : List String :=
  ((entries.foldl scanStep ⟨[], [], []⟩).files).mergeSort
    fun a b => pyLower a ≤ pyLower b

/-! ### Content-address key builder (`sha_for` and the cache paths) -/

/-- The stat identity of a source image fed into the digest: resolved path,
`st_mtime_ns` and `st_size`. -/
structure SrcStat where
  resolved : String
  mtimeNs : Int
  size : Int
deriving DecidableEq

/-- The byte stream fed to the SHA-1 digest by `sha_for`: the concatenation
of the resolved path, the mtime in nanoseconds, the size and the `extra`
variant descriptor (streamed `update` calls hash their concatenation). -/
def shaInput (src : SrcStat) (extra : String) : String :=
  src.resolved ++ toString src.mtimeNs ++ toString src.size ++ extra

/-- `sha_for`: the digest of `shaInput`.  The SHA-1 function itself is the
external `hashlib` collaborator, supplied as the parameter `sha1`. -/
def sha_for (sha1 : String → String) (src : SrcStat) (extra : String) : String :=
  sha1 (shaInput src extra)

/-- The `extra` string `f"thumb:{w}:{fmt}"` of `thumb_cache_path`. -/
def thumbExtra (w : Int) (fmt : String) : String :=
  "thumb:" ++ toString w ++ ":" ++ fmt

/-- The `extra` string `f"display:{max_long}:{fmt}"` of `display_cache_path`. -/
def displayExtra (maxLong : Int) (fmt : String) : String :=
  "display:" ++ toString maxLong ++ ":" ++ fmt

/-- `CACHE_DIR_THUMBS`. -/
def CACHE_DIR_THUMBS : String := ".cache/thumbs"

/-- `CACHE_DIR_DISPLAY`. -/
def CACHE_DIR_DISPLAY : String := ".cache/display"

/-- The sharded directory `root / (digest[:2] + "/" + digest[2:])`. -/
def shardDir (root digest : String) : String :=
  root ++ "/" ++ ⟨digest.data.take 2⟩ ++ "/" ++ ⟨digest.data.drop 2⟩

/-- The directory of `thumb_cache_path`. -/
def thumbCacheDir (sha1 : String → String) (src : SrcStat) (w : Int) (fmt : String) :
    String :=
  shardDir CACHE_DIR_THUMBS (sha_for sha1 src (thumbExtra w fmt))

/-- `thumb_cache_path`. -/
def thumb_cache_path (sha1 : String → String) (src : SrcStat) (w : Int) (fmt : String) :
    String :=
  thumbCacheDir sha1 src w fmt ++ "/thumb." ++ fmt

/-- The directory of `display_cache_path`. -/
def displayCacheDir (sha1 : String → String) (src : SrcStat) (maxLong : Int)
    (fmt : String) : String :=
  shardDir CACHE_DIR_DISPLAY (sha_for sha1 src (displayExtra maxLong fmt))

/-- `display_cache_path`. -/
def display_cache_path (sha1 : String → String) (src : SrcStat) (maxLong : Int)
    (fmt : String) : String :=
  displayCacheDir sha1 src maxLong fmt ++ "/display." ++ fmt

/-! ### Derivative cache: `make_thumbnail`, `make_display` -/

/-- The filesystem state the derivative cache touches: source files keyed by
absolute path components (value: `st_mtime_ns`, `st_size`), the set of
existing artifact files, and the set of existing cache directories. -/
structure GalleryFS where
  files : List (List String × Int × Int)
  artifacts : List String
  dirs : List String
deriving DecidableEq

/-- `src.stat()` for a source path (`none` models a raised `OSError`). -/
def GalleryFS.statOf (fs : GalleryFS) (p : List String) : Option (Int × Int) :=
  fs.files.lookup p

/-- `dst.parent.mkdir(parents=True, exist_ok=True)`: idempotent directory
creation. -/
def GalleryFS.mkdirp (fs : GalleryFS) (d : String) : GalleryFS :=
  if d ∈ fs.dirs then fs else ⟨fs.files, fs.artifacts, d :: fs.dirs⟩

/-- Render an absolute component path the way `str(path)` does. -/
def pathStr (p : List String) : String := "/" ++ String.intercalate "/" p

/-- Filesystem / image actions the derivative cache can perform, recorded as
a trace so "no regeneration", "no write" claims are statable. -/
inductive FSAct where
  | mkdirAct
  | existsCheck
  | openImage
  | saveImage
deriving DecidableEq

/-- The external collaborators of the derivative cache: the SHA-1 digest, the
Pillow decode/re-encode pipeline (`decodeOk p` says whether opening and
re-encoding source `p` succeeds; the resampling itself is the out-of-scope
codec), and the AVIF plugin availability. -/
structure CodecEnv where
  sha1 : String → String
  decodeOk : List String → Bool
  avifEnabled : Bool

/-- The mime type reported on the artifact-exists fast path:
`"image/avif" if fmt == "avif" else "image/webp"`. -/
def mimeOf (fmt : String) : String :=
  if fmt = "avif" then "image/avif" else "image/webp"

/-- `make_thumbnail`: compute the content-addressed destination, create its
directory, return on the existence-check fast path, else open/convert/save.
`Except.error` models a propagating exception (stat or decode failure);
the returned state and trace record what was touched. -/
def make_thumbnail (env : CodecEnv) (fs : GalleryFS) (p : List String) (w : Int)
    (fmt : String) : Except Unit (String × String) × GalleryFS × List FSAct :=
  match fs.statOf p with
  | none => (.error (), fs, [])
  | some st =>
    let src : SrcStat := ⟨pathStr p, st.1, st.2⟩
    let dst := thumb_cache_path env.sha1 src w fmt
    let fs1 := fs.mkdirp (thumbCacheDir env.sha1 src w fmt)
    if dst ∈ fs1.artifacts then
      (.ok (dst, mimeOf fmt), fs1, [.mkdirAct, .existsCheck])
    else if env.decodeOk p then
      let mime := if fmt = "avif" && env.avifEnabled then "image/avif" else "image/webp"
      (.ok (dst, mime), ⟨fs1.files, dst :: fs1.artifacts, fs1.dirs⟩,
        [.mkdirAct, .existsCheck, .openImage, .saveImage])
    else (.error (), fs1, [.mkdirAct, .existsCheck, .openImage])

/-- `make_display`: same structure as `make_thumbnail` with the display cache
directory and the long-side parameter. -/
def make_display (env : CodecEnv) (fs : GalleryFS) (p : List String) (maxLong : Int)
    (fmt : String) : Except Unit (String × String) × GalleryFS × List FSAct :=
  match fs.statOf p with
  | none => (.error (), fs, [])
  | some st =>
    let src : SrcStat := ⟨pathStr p, st.1, st.2⟩
    let dst := display_cache_path env.sha1 src maxLong fmt
    let fs1 := fs.mkdirp (displayCacheDir env.sha1 src maxLong fmt)
    if dst ∈ fs1.artifacts then
      (.ok (dst, mimeOf fmt), fs1, [.mkdirAct, .existsCheck])
    else if env.decodeOk p then
      let mime := if fmt = "avif" && env.avifEnabled then "image/avif" else "image/webp"
      (.ok (dst, mime), ⟨fs1.files, dst :: fs1.artifacts, fs1.dirs⟩,
        [.mkdirAct, .existsCheck, .openImage, .saveImage])
    else (.error (), fs1, [.mkdirAct, .existsCheck, .openImage])

/-! ### HTTP-facing operations: `thumb`, `display` -/

/-- The `thumb` route's request parameters: the `path` query argument
(pre-split into components, with a flag for an absolute path, so that the
`IMAGES_DIR / rel` join and `resolve()` are expressible; `none` models an
absent or empty argument), the requested edge length `w`, and the `fmt`
argument. -/
structure ThumbReq where
  path : Option (List String × Bool)
  w : Int
  fmt : Option String
deriving DecidableEq

/-- The `display` route's request parameters (`maxLong` defaults to
`DISPLAY_MAX` at the caller, like `args.get("max", DISPLAY_MAX)`). -/
structure DisplayReq where
  path : Option (List String × Bool)
  maxLong : Int
  fmt : Option String
deriving DecidableEq

/-- A route outcome: a served artifact, `abort(400)`, `abort(404)`, or an
uncaught exception surfacing as a server error. -/
inductive Resp where
  | ok (dst mime : String)
  | clientError (code : Nat)
  | notFound
  | serverError
deriving DecidableEq

/-- `THUMB_SIZES = [256, 512, 1024]`. -/
def THUMB_SIZES : List Int := [256, 512, 1024]

/-- Default of `GALLERY_DISPLAY_MAX`. -/
def DISPLAY_MAX : Int := 3840

/-- `Path.resolve()` on an absolute component list: `".."` pops a component,
`"."` and empty components vanish (symlink resolution is not modelled). -/
def resolveComponents (p : List String) : List String :=
  p.foldl
    (fun acc c =>
      if c = ".." then acc.dropLast
      else if c = "." ∨ c = "" then acc
      else acc ++ [c])
    []

/-- `(request.args.get("fmt") or "webp").lower()`. -/
def fmtArg (f : Option String) : String :=
  pyLower (match f with
    | none => "webp"
    | some s => if s = "" then "webp" else s)

/-- The `thumb` route over the filesystem model.  `root` is the resolved
`IMAGES_DIR` component list.  Returns the response, the post-request
filesystem and the trace of filesystem/codec actions performed after path
resolution. -/
def thumb (env : CodecEnv) (root : List String) (fs : GalleryFS) (req : ThumbReq) :
    Resp × GalleryFS × List FSAct :=
  let fmt := fmtArg req.fmt
  if req.w ∉ THUMB_SIZES then (.clientError 400, fs, [])
  else
    match req.path with
    | none => (.clientError 400, fs, [])
    | some (rel, isAbs) =>
      let src := resolveComponents (if isAbs then rel else root ++ rel)
      if ¬ root.isPrefixOf src then (.clientError 400, fs, [])
      else if (fs.statOf src).isNone then (.notFound, fs, [.existsCheck])
      else
        let fmt2 := if fmt = "avif" && !env.avifEnabled then "webp" else fmt
        match make_thumbnail env fs src req.w fmt2 with
        | (.error _, fs2, tr) => (.serverError, fs2, .existsCheck :: tr)
        | (.ok (dst, mime), fs2, tr) => (.ok dst mime, fs2, .existsCheck :: tr)

/-- The `display` route, same shape as `thumb` but with no size whitelist. -/
def display (env : CodecEnv) (root : List String) (fs : GalleryFS) (req : DisplayReq) :
    Resp × GalleryFS × List FSAct :=
  let fmt := fmtArg req.fmt
  match req.path with
  | none => (.clientError 400, fs, [])
  | some (rel, isAbs) =>
    let src := resolveComponents (if isAbs then rel else root ++ rel)
    if ¬ root.isPrefixOf src then (.clientError 400, fs, [])
    else if (fs.statOf src).isNone then (.notFound, fs, [.existsCheck])
    else
      let fmt2 := if fmt = "avif" && !env.avifEnabled then "webp" else fmt
      match make_display env fs src req.maxLong fmt2 with
      | (.error _, fs2, tr) => (.serverError, fs2, .existsCheck :: tr)
      | (.ok (dst, mime), fs2, tr) => (.ok dst mime, fs2, .existsCheck :: tr)

/-! ### Prebuild pass (`prebuild_all`) -/

/-- A source as the prebuild worker sees it: the result of the probing
`Image.open` (`none` = the open raised, e.g. a corrupt file; `some (w, h)` =
the dimensions), and whether each `make_thumbnail` / `make_display`
invocation during generation succeeds (Pillow's open is lazy, so a source
whose probe succeeds can still fail to decode during generation). -/
structure PrebuildSrc where
  probe : Option (Int × Int)
  genThumbOk : Int → String → Bool
  genDisplayOk : String → Bool

/-- The format list of the prebuild loop:
`["avif","webp"] if (build_avif and AVIF_ENABLED) else ["webp"]`. -/
def prebuildFmts (buildAvif avifEnabled : Bool) : List String :=
  if buildAvif && avifEnabled then ["avif", "webp"] else ["webp"]

/-- The generation loop of the `work` closure: for each format, one
`make_thumbnail` per size then one `make_display`, incrementing `made` per
artifact; a failing call raises (`Except.error`), abandoning the loop. -/
def workGen (s : PrebuildSrc) (sizes : List Int) (fmts : List String) :
    Except Unit Nat :=
  fmts.foldlM
    (fun made fmt => do
      let made2 ← sizes.foldlM
        (fun m sz =>
          if s.genThumbOk sz fmt then Except.ok (m + 1) else Except.error ())
        made
      if s.genDisplayOk fmt then Except.ok (made2 + 1) else Except.error ())
    0

/-- The `work` closure of `prebuild_all` for one source: a probe failure or a
small image is caught and counted as zero; an exception during generation
propagates. -/
def workOne (minLong : Int) (sizes : List Int) (fmts : List String)
    (s : PrebuildSrc) : Except Unit Nat :=
  match s.probe with
  | none => .ok 0
  | some (w, h) =>
    if max w h < minLong then .ok 0 else workGen s sizes fmts

/-- `prebuild_all`: accumulate the per-source counts in order, as the
`for n in ex.map(work, images)` loop does; the first exception raised by a
worker propagates out of the loop and aborts the accumulation. -/
def prebuild_all (minLong : Int) (sizes : List Int) (buildAvif avifEnabled : Bool)
    (imgs : List PrebuildSrc) : Except Unit Nat :=
  imgs.foldlM
    (fun total s =>
      (workOne minLong sizes (prebuildFmts buildAvif avifEnabled) s).map (total + ·))
    0

/-! ### Listing and facet aggregation (`api_images`, `api_facets`) -/

/-- The processed filter arguments of `/api/images`: `season` is already
`.strip().lower()`-ed, `state` `.strip()`-ed, as the route does on entry. -/
structure ImagesReq where
  season : String
  state : String
deriving DecidableEq

/-- `Path(p).name`: the last slash-separated component. -/
def lastComponent (p : String) : String := (pySplitStr p '/').getLastD ""

/-- `str(Path(p).relative_to(root))` for scan results (paths produced by the
scanner, hence lying under the root). -/
def relToRoot (root p : String) : String :=
  if (root ++ "/").data.isPrefixOf p.data then ⟨p.data.drop (root.length + 1)⟩ else p

/-- The body of the `/api/images` loop for one scanned file paired with its
metadata record (the meta-cache read-through and the exiftool call that
produce this record are the external extraction collaborators): summarize,
attach `_path`/`_name`, then drop the entry if the known larger dimension is
under the minimum, or if a season/state filter mismatches.  `none` models
`continue`. -/
def apiImagesItem (minLong : Int) (root : String) (req : ImagesReq)
    (e : String × Meta) : Option Summary :=
  let summary0 := summarize_meta e.2
  let summary := { summary0 with
    pathRel := some (relToRoot root e.1), name := some (lastComponent e.1) }
  let w := summary.ImageWidth.getD 0
  let h := summary.ImageHeight.getD 0
  if max w h ≠ 0 ∧ max w h < minLong then none
  else if req.season ≠ "" ∧ req.season ≠ pyLower (summary.season.getD "") then none
  else if req.state ≠ "" ∧ req.state ≠ summary.state.getD "" then none
  else some summary

/-- `/api/images`: the retained summaries, in scan order. -/
def api_images (minLong : Int) (root : String) (req : ImagesReq)
    (entries : List (String × Meta)) : List Summary :=
  entries.filterMap (apiImagesItem minLong root req)

/-- The two facet accumulation sets of `/api/facets`. -/
structure Facets where
  states : List String
  seasons : List String
deriving DecidableEq

/-- Python `set.add`. -/
def setAdd (xs : List String) (x : String) : List String :=
  if x ∈ xs then xs else x :: xs

/-- The facet contribution of one retained entry: a truthy `_state` /
`_season` joins the respective set. -/
def facetAdd (acc : Facets) (summary : Summary) : Facets :=
  let acc1 : Facets :=
    match summary.state with
    | some st => if st ≠ "" then ⟨setAdd acc.states st, acc.seasons⟩ else acc
    | none => acc
  match summary.season with
  | some ss => if ss ≠ "" then ⟨acc1.states, setAdd acc1.seasons ss⟩ else acc1
  | none => acc1

/-- The body of the `/api/facets` loop for one scanned file: entries whose
known larger dimension is under the minimum are skipped; the rest
contribute their facets. -/
def facetStep (minLong : Int) (acc : Facets) (e : String × Meta) : Facets :=
  let summary := summarize_meta e.2
  let w := summary.ImageWidth.getD 0
  let h := summary.ImageHeight.getD 0
  if max w h ≠ 0 ∧ max w h < minLong then acc
  else facetAdd acc summary

/-- `/api/facets`: fold the scan entries, then return both sets sorted. -/
def api_facets (minLong : Int) (entries : List (String × Meta)) : Facets :=
  let f := entries.foldl (facetStep minLong) ⟨[], []⟩
  ⟨f.states.mergeSort (fun a b => a ≤ b), f.seasons.mergeSort (fun a b => a ≤ b)⟩

/-! ### Character-level lemmas for the ASCII string model -/

theorem charToNat_inj {a b : Char} (h : a.toNat = b.toNat) : a = b :=
  Char.eq_of_val_eq (UInt32.toNat.inj h)

theorem charOfNat_toNat {n : Nat} (h : n < 55296) : (Char.ofNat n).toNat = n := by
  have hv : n.isValidChar := Or.inl h
  simp [Char.ofNat, hv, Char.ofNatAux, Char.toNat, UInt32.toNat]

theorem uint32_le_iff {m : Nat} {n : UInt32} (h : m < UInt32.size) :
    UInt32.ofNat m ≤ n ↔ m ≤ n.toNat := by
  simp [UInt32.le_def, BitVec.le_def, UInt32.toNat, UInt32.toBitVec_eq_of_lt h]

theorem uint32_ge_iff {m : Nat} {n : UInt32} (h : m < UInt32.size) :
    n ≤ UInt32.ofNat m ↔ n.toNat ≤ m := by
  simp [UInt32.le_def, BitVec.le_def, UInt32.toNat, UInt32.toBitVec_eq_of_lt h]

/-- A character whose `toLower` is a lower-case letter is either that letter
or its upper-case counterpart. -/
theorem toLower_cases {c d : Char} (h : c.toLower = d)
    (h1 : 97 ≤ d.toNat) (h2 : d.toNat ≤ 122) :
    c = d ∨ (c.toNat = d.toNat - 32 ∧ 65 ≤ c.toNat ∧ c.toNat ≤ 90) := by
  by_cases hc : c.toNat ≥ 65 ∧ c.toNat ≤ 90
  · right
    rw [Char.toLower] at h
    rw [if_pos hc] at h
    have h3 : (Char.ofNat (c.toNat + 32)).toNat = c.toNat + 32 := charOfNat_toNat (by omega)
    rw [h] at h3
    omega
  · left
    rw [Char.toLower, if_neg hc] at h
    exact h

theorem isLower_iff {c : Char} : c.isLower = true ↔ 97 ≤ c.toNat ∧ c.toNat ≤ 122 := by
  show (c.val ≥ 97 && c.val ≤ 122) = true ↔ _
  rw [Bool.and_eq_true, decide_eq_true_eq, decide_eq_true_eq]
  constructor
  · rintro ⟨ha, hb⟩
    exact ⟨(uint32_le_iff (by decide)).mp ha, (uint32_ge_iff (by decide)).mp hb⟩
  · rintro ⟨ha, hb⟩
    exact ⟨(uint32_le_iff (by decide)).mpr ha, (uint32_ge_iff (by decide)).mpr hb⟩

theorem isUpper_iff {c : Char} : c.isUpper = true ↔ 65 ≤ c.toNat ∧ c.toNat ≤ 90 := by
  show (c.val ≥ 65 && c.val ≤ 90) = true ↔ _
  rw [Bool.and_eq_true, decide_eq_true_eq, decide_eq_true_eq]
  constructor
  · rintro ⟨ha, hb⟩
    exact ⟨(uint32_le_iff (by decide)).mp ha, (uint32_ge_iff (by decide)).mp hb⟩
  · rintro ⟨ha, hb⟩
    exact ⟨(uint32_le_iff (by decide)).mpr ha, (uint32_ge_iff (by decide)).mpr hb⟩

theorem isAlpha_of_toLower {c d : Char} (h : c.toLower = d)
    (h1 : 97 ≤ d.toNat) (h2 : d.toNat ≤ 122) : c.isAlpha = true := by
  rcases toLower_cases h h1 h2 with h3 | ⟨h3, h4, h5⟩
  · subst h3
    rw [Char.isAlpha, Bool.or_eq_true]
    right
    exact isLower_iff.mpr ⟨h1, h2⟩
  · rw [Char.isAlpha, Bool.or_eq_true]
    left
    exact isUpper_iff.mpr ⟨h4, h5⟩

theorem toUpper_of_toLower {c d : Char} (h : c.toLower = d)
    (h1 : 97 ≤ d.toNat) (h2 : d.toNat ≤ 122) :
    c.toUpper = Char.ofNat (d.toNat - 32) := by
  rcases toLower_cases h h1 h2 with h3 | ⟨h3, h4, h5⟩
  · subst h3
    rw [Char.toUpper, if_pos ⟨h1, h2⟩]
  · rw [Char.toUpper, if_neg (by omega)]
    apply charToNat_inj
    rw [charOfNat_toNat (by omega)]
    omega

theorem pyIsSpace_false_of_toLower {c d : Char} (h : c.toLower = d)
    (h1 : 97 ≤ d.toNat) (h2 : d.toNat ≤ 122) : pyIsSpace c = false := by
  have hc : 65 ≤ c.toNat := by
    rcases toLower_cases h h1 h2 with h3 | ⟨h3, h4, h5⟩
    · subst h3; omega
    · exact h4
  rw [pyIsSpace]
  simp only [Bool.or_eq_false_iff, decide_eq_false_iff_not]
  refine ⟨⟨⟨⟨⟨?_, ?_⟩, ?_⟩, ?_⟩, ?_⟩, ?_⟩ <;> rintro rfl <;> exact absurd hc (by decide)

theorem dropWhile_eq_self_of_none {p : Char → Bool} {l : List Char}
    (h : ∀ c ∈ l, p c = false) : l.dropWhile p = l := by
  cases l with
  | nil => rfl
  | cons c cs =>
    rw [List.dropWhile_cons, h c (List.mem_cons_self c cs)]
    simp

theorem pyStripL_eq_self {l : List Char} (h : ∀ c ∈ l, pyIsSpace c = false) :
    pyStripL l = l := by
  rw [pyStripL, dropWhile_eq_self_of_none h,
    dropWhile_eq_self_of_none fun c hc => h c (List.mem_reverse.mp hc),
    List.reverse_reverse]

/-- A string that lower-cases to an all-lower-case-letter word is unchanged
by `titleGo true` (each character re-lower-cases to itself). -/
theorem titleGo_true_map_toLower (l : List Char) :
    ∀ t, l.map Char.toLower = t → (∀ c ∈ t, 97 ≤ c.toNat ∧ c.toNat ≤ 122) →
    titleGo true l = t := by
  induction l with
  | nil =>
    intro t h _
    rw [← h]
    rfl
  | cons c cs ih =>
    intro t h ht
    subst h
    have hb := ht c.toLower (by simp)
    have ha : c.isAlpha = true := isAlpha_of_toLower rfl hb.1 hb.2
    simp only [titleGo, ha, if_true, List.map_cons, List.cons.injEq]
    exact ⟨trivial, ih _ rfl fun d hd => ht d (List.mem_cons_of_mem _ hd)⟩

/-- `titleGo false` on a string whose lower-casing is a single all-letter
word upper-cases the head and lower-cases the tail. -/
theorem titleGo_false_map_toLower (c : Char) (cs : List Char) (t : List Char)
    (h2 : cs.map Char.toLower = t)
    (hd : 97 ≤ c.toLower.toNat ∧ c.toLower.toNat ≤ 122)
    (ht : ∀ e ∈ t, 97 ≤ e.toNat ∧ e.toNat ≤ 122) :
    titleGo false (c :: cs) = Char.ofNat (c.toLower.toNat - 32) :: t := by
  have ha : c.isAlpha = true := isAlpha_of_toLower rfl hd.1 hd.2
  simp only [titleGo, ha, if_true, List.cons.injEq]
  exact ⟨toUpper_of_toLower rfl hd.1 hd.2, titleGo_true_map_toLower cs t h2 ht⟩

/-! ### Region normalization (claim C7) -/

/-- Any letter-casing of "massachusetts" normalizes to the full name with
standardized capitalization. -/
theorem normalize_massachusetts_anycase (r : String) (pv : Option String)
    (h : pyLower r = "massachusetts") :
    normalize_state_full (some r) pv = some "Massachusetts" := by
  have hdata : r.data.map Char.toLower = "massachusetts".data := congrArg String.data h
  have hlen : r.data.length = 13 := by
    have h13 : ("massachusetts".data).length = 13 := by decide
    have hl := congrArg List.length hdata
    rw [List.length_map] at hl
    exact hl.trans h13
  have ht : ∀ e ∈ "massachusetts".data, 97 ≤ e.toNat ∧ e.toNat ≤ 122 := by decide
  have hnospace : ∀ c ∈ r.data, pyIsSpace c = false := by
    intro c hc
    have hm : c.toLower ∈ "massachusetts".data := by
      rw [← hdata]
      exact List.mem_map_of_mem Char.toLower hc
    exact pyIsSpace_false_of_toLower rfl (ht _ hm).1 (ht _ hm).2
  have hr_ne : r ≠ "" := by
    intro he
    subst he
    exact absurd hlen (by decide)
  have hstrip : pyStrip r = r := by
    show (⟨pyStripL r.data⟩ : String) = r
    rw [pyStripL_eq_self hnospace]
  have hlen2 : r.length = 13 := hlen
  have htitle : pyTitle r = "Massachusetts" := by
    rw [pyTitle]
    cases hr : r.data with
    | nil =>
      rw [hr] at hlen
      exact absurd hlen (by decide)
    | cons c cs =>
      rw [hr, List.map_cons] at hdata
      have hmass : "massachusetts".data = 'm' :: "assachusetts".data := by decide
      rw [hmass] at hdata
      injection hdata with hc1 hc2
      have hout := titleGo_false_map_toLower c cs "assachusetts".data hc2
        (by rw [hc1]; exact ⟨by decide, by decide⟩)
        (by decide)
      rw [hout, hc1]
      decide
  have hnf : normFromRaw (some r) = some "Massachusetts" := by
    simp only [normFromRaw]
    rw [if_neg hr_ne]
    simp only [hstrip, hlen2, h]
    rw [if_neg (by simp)]
    have hlook : US_FULL_TO_ABBR.lookup "massachusetts" = some "MA" := by decide
    rw [hlook]
    simp [pyAndStr, hr_ne, htitle]
  simp [normalize_state_full, hnf]

/-- Claim C7: region normalization of a metadata record's State field maps
"MA" to "Massachusetts", any letter-casing of "Massachusetts" to
"Massachusetts", passes the unknown code "XX" through unexpanded
(upper-cased), and title-cases the non-US value "quebec" to "Quebec". -/
theorem claim_C7_region_normalization :
    normalize_state_full (some "MA") none = some "Massachusetts" ∧
    (∀ r pv, pyLower r = "massachusetts" →
      normalize_state_full (some r) pv = some "Massachusetts") ∧
    normalize_state_full (some "XX") none = some "XX" ∧
    normalize_state_full (some "quebec") none = some "Quebec" :=
  ⟨by decide, fun r pv h => normalize_massachusetts_anycase r pv h,
   by decide, by decide⟩

/-- Witness for C7 at a concrete mixed-case input. -/
theorem claim_C7_region_normalization_witness :
    normalize_state_full (some "mAsSaChUsEtTs") none = some "Massachusetts" :=
  claim_C7_region_normalization.2.1 "mAsSaChUsEtTs" none (by decide)

/-! ### Season parsing (claim C8) -/

theorem seasonOfKw_eq_none {k : String}
    (h : pyStartsWith (pyLower k) "season:" = false) : seasonOfKw k = none := by
  rw [seasonOfKw]
  simp only [h]
  rfl

theorem parse_season_eq_none {kw : Option KwVal}
    (h : ∀ k ∈ kwListOf kw, pyStartsWith (pyLower k) "season:" = false) :
    parse_season kw = none := by
  rw [parse_season, List.findSome?_eq_none_iff]
  exact fun k hk => seasonOfKw_eq_none (h k hk)

/-- Claim C8: a keyword "Season:Fall" (case-insensitive prefix match) gives
summary season "autumn"; "season:winter" gives "winter"; and when no keyword
of the record lower-cases to something starting with "season:", the season
field is absent from the Summary. -/
theorem claim_C8_season_parsing :
    (summarize_meta { Keywords := some (.listVal ["Season:Fall"]) }).season
      = some "autumn" ∧
    (summarize_meta { Keywords := some (.strVal "season:winter") }).season
      = some "winter" ∧
    (∀ m : Meta,
      (∀ k ∈ kwListOf (summKeywords m.Keywords),
        pyStartsWith (pyLower k) "season:" = false) →
      (summarize_meta m).season = none) := by
  refine ⟨by decide, by decide, ?_⟩
  intro m h
  have hps : parse_season (summKeywords m.Keywords) = none := parse_season_eq_none h
  by_cases hm : m.isEmptyDict
  · simp [summarize_meta, hm]
  · simp [summarize_meta, hm, hps]

/-- Witness for C8 at a concrete keyword list with no season keyword. -/
theorem claim_C8_season_parsing_witness :
    (summarize_meta { Keywords := some (.listVal ["foo", "Sea:son", "autumn"]) }).season
      = none :=
  claim_C8_season_parsing.2.2 { Keywords := some (.listVal ["foo", "Sea:son", "autumn"]) }
    (by decide)

/-! ### Metadata cache validity (claim C1) -/

theorem lookup_filterNe_self (k : String) (d : List (String × MetaCacheItem)) :
    (d.filter (fun kv => kv.1 != k)).lookup k = none := by
  induction d with
  | nil => rfl
  | cons kv tl ih =>
    rw [List.filter_cons]
    cases hk : (kv.1 != k) with
    | true =>
      rw [if_pos rfl]
      have hne : (k == kv.1) = false := by
        rw [beq_eq_false_iff_ne]
        rw [bne_iff_ne] at hk
        exact fun he => hk he.symm
      simp only [List.lookup, hne]
      exact ih
    | false =>
      rw [if_neg Bool.false_ne_true]
      exact ih

theorem lookup_filterNe_other (k k' : String) (h : k' ≠ k)
    (d : List (String × MetaCacheItem)) :
    (d.filter (fun kv => kv.1 != k)).lookup k' = d.lookup k' := by
  induction d with
  | nil => rfl
  | cons kv tl ih =>
    rw [List.filter_cons]
    cases hk : (kv.1 != k) with
    | true =>
      rw [if_pos rfl]
      cases hb : (k' == kv.1) with
      | true => simp only [List.lookup, hb]
      | false =>
        simp only [List.lookup, hb]
        exact ih
    | false =>
      rw [if_neg Bool.false_ne_true]
      have hkk : kv.1 = k := by
        rw [← bne_eq_false_iff_eq]
        exact hk
      have hb : (k' == kv.1) = false := by
        rw [beq_eq_false_iff_ne, hkk]
        exact h
      simp only [List.lookup, hb]
      exact ih

theorem dictPop_lookup_self (d : List (String × MetaCacheItem)) (k : String) :
    (dictPop d k).lookup k = none :=
  lookup_filterNe_self k d

theorem dictPop_lookup_ne (d : List (String × MetaCacheItem)) (k k' : String)
    (h : k' ≠ k) : (dictPop d k).lookup k' = d.lookup k' :=
  lookup_filterNe_other k k' h d

/-- Claim C1: `MetaCache.get` returns the cached record iff an entry keyed by
the resolved path exists, the file still exists, its current modification
time equals the stored one, and either the configured ttl is 0 or the
entry's age (now minus capture timestamp) is at most ttl; in every other
case it returns absent and the entry, if present, is removed from the
mapping (other keys are untouched). -/
theorem claim_C1_metacache_get_validity (env : MetaCacheEnv) (c : MetaCache)
    (path : String) :
    (∀ d, (MetaCache.get env c path).1 = some d ↔
      (∃ item, c.data.lookup (env.resolvePath path) = some item ∧ item.data = d ∧
        env.getmtime (env.resolvePath path) = some item.mtime ∧
        (c.ttl = 0 ∨ env.now - item.ts ≤ (c.ttl : Int)))) ∧
    ((MetaCache.get env c path).1 = none →
      (MetaCache.get env c path).2.data.lookup (env.resolvePath path) = none ∧
      ∀ k, k ≠ env.resolvePath path →
        (MetaCache.get env c path).2.data.lookup k = c.data.lookup k) := by
  cases hl : c.data.lookup (env.resolvePath path) with
  | none =>
    refine ⟨fun d => ?_, fun _ => ?_⟩
    · simp [MetaCache.get, hl]
    · refine ⟨?_, fun k hk => ?_⟩ <;> simp [MetaCache.get, hl]
  | some item =>
    cases hm : env.getmtime (env.resolvePath path) with
    | none =>
      refine ⟨fun d => ?_, fun _ => ?_⟩
      · simp [MetaCache.get, hl, hm]
      · refine ⟨?_, fun k hk => ?_⟩
        · simp only [MetaCache.get, hl, hm]
          exact dictPop_lookup_self c.data (env.resolvePath path)
        · simp only [MetaCache.get, hl, hm]
          exact dictPop_lookup_ne c.data (env.resolvePath path) k hk
    | some mtime =>
      by_cases hmt : mtime ≠ item.mtime
      · refine ⟨fun d => ?_, fun _ => ?_⟩
        · simp only [MetaCache.get, hl, hm, if_pos hmt]
          constructor
          · intro h
            exact absurd h (by simp)
          · rintro ⟨item', hi, _, hmm, _⟩
            injection hi with hi
            subst hi
            injection hmm with hmm
            exact absurd hmm hmt
        · refine ⟨?_, fun k hk => ?_⟩
          · simp only [MetaCache.get, hl, hm, if_pos hmt]
            exact dictPop_lookup_self c.data (env.resolvePath path)
          · simp only [MetaCache.get, hl, hm, if_pos hmt]
            exact dictPop_lookup_ne c.data (env.resolvePath path) k hk
      · by_cases htt : c.ttl ≠ 0 ∧ env.now - item.ts > (c.ttl : Int)
        · refine ⟨fun d => ?_, fun _ => ?_⟩
          · simp only [MetaCache.get, hl, hm, if_neg hmt, if_pos htt]
            constructor
            · intro h
              exact absurd h (by simp)
            · rintro ⟨item', hi, _, hmm, hts⟩
              injection hi with hi
              subst hi
              rcases hts with hts | hts
              · exact absurd hts htt.1
              · exact absurd hts (by omega)
          · refine ⟨?_, fun k hk => ?_⟩
            · simp only [MetaCache.get, hl, hm, if_neg hmt, if_pos htt]
              exact dictPop_lookup_self c.data (env.resolvePath path)
            · simp only [MetaCache.get, hl, hm, if_neg hmt, if_pos htt]
              exact dictPop_lookup_ne c.data (env.resolvePath path) k hk
        · refine ⟨fun d => ?_, fun h0 => ?_⟩
          · simp only [MetaCache.get, hl, hm, if_neg hmt, if_neg htt]
            push_neg at hmt
            constructor
            · intro h
              injection h with h
              refine ⟨item, rfl, h.symm ▸ rfl, by rw [hmt], ?_⟩
              by_cases hz : c.ttl = 0
              · exact Or.inl hz
              · right
                rcases not_and_or.mp htt with hc | hc
                · exact absurd hz (by simpa using hc)
                · omega
            · rintro ⟨item', hi, hd, _, _⟩
              injection hi with hi
              subst hi
              rw [hd]
          · exfalso
            simp only [MetaCache.get, hl, hm, if_neg hmt, if_neg htt] at h0
            exact Option.some_ne_none _ h0

/-- Witness for C1: a concrete expired entry (ttl 300, age 950) is evicted on
lookup. -/
theorem claim_C1_metacache_get_validity_witness :
    (MetaCache.get ⟨fun p => p, fun _ => some 5, 1000⟩
        ⟨300, [("a", ⟨5, {}, 50⟩)]⟩ "a").2.data.lookup "a" = none :=
  ((claim_C1_metacache_get_validity ⟨fun p => p, fun _ => some 5, 1000⟩
      ⟨300, [("a", ⟨5, {}, 50⟩)]⟩ "a").2 (by decide)).1

/-! ### Scanner dedup and ordering (claim C2) -/

/-- `scanStep` preserves the invariant that collected files have pairwise
distinct lower-cased paths, all recorded in `seen`. -/
theorem scanStep_inv {s : ScanState} (e : ScanEntry)
    (h1 : (s.files.map pyLower).Nodup) (h2 : ∀ x ∈ s.files, pyLower x ∈ s.seen) :
    ((scanStep s e).files.map pyLower).Nodup ∧
    ∀ x ∈ (scanStep s e).files, pyLower x ∈ (scanStep s e).seen := by
  by_cases hig : (e.ignored || !e.image) = true
  · simp only [scanStep, hig, if_true]
    exact ⟨h1, h2⟩
  · by_cases hseen : pyLower e.resolved ∈ s.seen
    · simp only [scanStep, hig, Bool.false_eq_true, if_false, hseen, if_true]
      exact ⟨h1, h2⟩
    · have hkey : pyLower e.resolved ∉ s.files.map pyLower := by
        intro hmem
        rcases List.mem_map.mp hmem with ⟨x, hx, hxe⟩
        exact hseen (hxe ▸ h2 x hx)
      have happ :
          ((s.files ++ [e.resolved]).map pyLower).Nodup ∧
          ∀ x ∈ s.files ++ [e.resolved],
            pyLower x ∈ pyLower e.resolved :: s.seen := by
        constructor
        · rw [List.map_append]
          exact List.Nodup.append h1 (by simp)
            (by simpa [List.disjoint_singleton] using hkey)
        · intro x hx
          rcases List.mem_append.mp hx with hx | hx
          · exact List.mem_cons_of_mem _ (h2 x hx)
          · rw [List.mem_singleton.mp hx]
            exact List.mem_cons_self _ _
      cases hst : e.stat with
      | some tup =>
        by_cases hio : tup ∈ s.seenInode
        · simp only [scanStep, hig, Bool.false_eq_true, if_false, hseen, hst,
            hio, if_true]
          exact ⟨h1, h2⟩
        · simp only [scanStep, hig, Bool.false_eq_true, if_false, hseen, hst,
            hio, if_true]
          exact happ
      | none =>
        simp only [scanStep, hig, Bool.false_eq_true, if_false, hseen, hst]
        exact happ

/-- Folding `scanStep` from an invariant-satisfying state preserves the
invariant. -/
theorem scanFold_inv (entries : List ScanEntry) :
    ∀ s : ScanState, (s.files.map pyLower).Nodup →
      (∀ x ∈ s.files, pyLower x ∈ s.seen) →
      (((entries.foldl scanStep s).files.map pyLower).Nodup) := by
  induction entries with
  | nil =>
    intro s h1 _
    exact h1
  | cons e tl ih =>
    intro s h1 h2
    have h := scanStep_inv e h1 h2
    exact ih _ h.1 h.2

/-- Claim C2: `scan_images` returns a list with pairwise distinct lower-cased
paths, sorted ascending by lower-cased path; the loop drops a file when
either dedup signal (lower-cased resolved path, or inode pair when stat
succeeded) was already seen, keeping the earlier files; a fresh file is
appended after the first-seen ones; and a stat failure never excludes a
file (inclusion then depends on the path signal alone). -/
theorem claim_C2_scan_images (entries : List ScanEntry) :
    ((scan_images entries).map pyLower).Nodup ∧
    (scan_images entries).Pairwise (fun a b => pyLower a ≤ pyLower b) ∧
    (∀ s : ScanState, ∀ e : ScanEntry, e.ignored = false → e.image = true →
      ((pyLower e.resolved ∈ s.seen ∨ ∃ t, e.stat = some t ∧ t ∈ s.seenInode) →
        (scanStep s e).files = s.files) ∧
      (e.stat = none → pyLower e.resolved ∉ s.seen →
        (scanStep s e).files = s.files ++ [e.resolved]) ∧
      (∀ t, e.stat = some t → pyLower e.resolved ∉ s.seen → t ∉ s.seenInode →
        (scanStep s e).files = s.files ++ [e.resolved])) := by
  refine ⟨?_, ?_, ?_⟩
  · rw [scan_images]
    have h := scanFold_inv entries ⟨[], [], []⟩ (by simp) (by simp)
    exact ((List.mergeSort_perm _ _).map pyLower).nodup_iff.mpr h
  · rw [scan_images]
    refine List.Pairwise.imp ?_ (List.sorted_mergeSort ?_ ?_ _)
    · intro a b h
      exact of_decide_eq_true h
    · intro a b c hab hbc
      exact decide_eq_true
        (le_trans (of_decide_eq_true hab) (of_decide_eq_true hbc))
    · intro a b
      rw [Bool.or_eq_true]
      exact (le_total (pyLower a) (pyLower b)).imp decide_eq_true decide_eq_true
  · intro s e hig himg
    have hcond : (e.ignored || !e.image) = false := by rw [hig, himg]; rfl
    refine ⟨?_, ?_, ?_⟩
    · rintro (hseen | ⟨t, hst, hio⟩)
      · simp [scanStep, hcond, hseen]
      · by_cases hseen : pyLower e.resolved ∈ s.seen
        · simp [scanStep, hcond, hseen]
        · simp [scanStep, hcond, hseen, hst, hio]
    · intro hst hseen
      simp [scanStep, hcond, hseen, hst]
    · intro t hst hseen hio
      simp [scanStep, hcond, hseen, hst, hio]

/-- Witness for C2: a fresh file whose stat failed is still appended. -/
theorem claim_C2_scan_images_witness :
    (scanStep ⟨["/b.jpg"], ["/b.jpg"], [(7, 1)]⟩
        ⟨"/A.JPG", none, false, true⟩).files = ["/b.jpg"] ++ ["/A.JPG"] :=
  ((claim_C2_scan_images []).2.2 ⟨["/b.jpg"], ["/b.jpg"], [(7, 1)]⟩
      ⟨"/A.JPG", none, false, true⟩ rfl rfl).2.1 rfl (by decide)

/-! ### Route-level input validation (claims C3, C5) -/

/-- Claim C3: a `thumb` or `display` request whose `path` parameter resolves
outside the images root is rejected with a 400 client error before any
filesystem access beyond path resolution: the filesystem is unchanged and
the action trace (existence checks, cache lookups, generation) is empty. -/
theorem claim_C3_path_traversal_rejected (env : CodecEnv) (root : List String)
    (fs : GalleryFS) (rel : List String) (isAbs : Bool) (w maxLong : Int)
    (fmtT fmtD : Option String)
    (h : ¬ root.isPrefixOf (resolveComponents (if isAbs then rel else root ++ rel))
        = true) :
    thumb env root fs ⟨some (rel, isAbs), w, fmtT⟩ = (.clientError 400, fs, []) ∧
    display env root fs ⟨some (rel, isAbs), maxLong, fmtD⟩
      = (.clientError 400, fs, []) := by
  constructor
  · rw [thumb]
    by_cases hw : w ∈ THUMB_SIZES
    · simp [hw, h]
    · simp [hw]
  · rw [display]
    simp [h]

/-- Witness for C3: a relative path climbing out of `/srv/photos` via `..`
is rejected by both routes. -/
theorem claim_C3_path_traversal_rejected_witness :
    thumb ⟨id, fun _ => true, true⟩ ["srv", "photos"] ⟨[], [], []⟩
        ⟨some (["..", "..", "etc", "passwd"], false), 512, none⟩
      = (.clientError 400, ⟨[], [], []⟩, []) ∧
    display ⟨id, fun _ => true, true⟩ ["srv", "photos"] ⟨[], [], []⟩
        ⟨some (["..", "..", "etc", "passwd"], false), 3840, none⟩
      = (.clientError 400, ⟨[], [], []⟩, []) :=
  claim_C3_path_traversal_rejected ⟨id, fun _ => true, true⟩ ["srv", "photos"]
    ⟨[], [], []⟩ ["..", "..", "etc", "passwd"] false 512 3840 none none
    (by decide)

/-- Claim C5: a thumbnail request whose edge length is not in `THUMB_SIZES`
is rejected with a 400 client error (not clamped): the filesystem is
returned unchanged and no action (in particular no write) is performed. -/
theorem claim_C5_thumb_size_whitelist (env : CodecEnv) (root : List String)
    (fs : GalleryFS) (req : ThumbReq) (h : req.w ∉ THUMB_SIZES) :
    thumb env root fs req = (.clientError 400, fs, []) := by
  rw [thumb]
  simp [h]

/-- Witness for C5: edge length 300 is rejected. -/
theorem claim_C5_thumb_size_whitelist_witness :
    thumb ⟨id, fun _ => true, true⟩ ["srv", "photos"] ⟨[], [], []⟩
        ⟨some (["a.jpg"], false), 300, none⟩
      = (.clientError 400, ⟨[], [], []⟩, []) :=
  claim_C5_thumb_size_whitelist ⟨id, fun _ => true, true⟩ ["srv", "photos"]
    ⟨[], [], []⟩ ⟨some (["a.jpg"], false), 300, none⟩ (by decide)

/-! ### Derivative-cache idempotence (claim C9) -/

theorem mkdirp_files (fs : GalleryFS) (d : String) :
    (fs.mkdirp d).files = fs.files := by
  rw [GalleryFS.mkdirp]
  by_cases h : d ∈ fs.dirs <;> simp [h]

theorem mkdirp_artifacts (fs : GalleryFS) (d : String) :
    (fs.mkdirp d).artifacts = fs.artifacts := by
  rw [GalleryFS.mkdirp]
  by_cases h : d ∈ fs.dirs <;> simp [h]

theorem mkdirp_mem_dirs (fs : GalleryFS) (d : String) : d ∈ (fs.mkdirp d).dirs := by
  rw [GalleryFS.mkdirp]
  by_cases h : d ∈ fs.dirs <;> simp [h]

theorem mkdirp_of_mem {fs : GalleryFS} {d : String} (h : d ∈ fs.dirs) :
    fs.mkdirp d = fs := by
  rw [GalleryFS.mkdirp, if_pos h]

/-- Claim C9: a second `make_thumbnail` call with identical parameters on the
unchanged source returns the same artifact path, leaves the filesystem
unchanged, and performs only the directory ensure and the existence check —
no source open, no re-encode. -/
theorem claim_C9_thumbnail_idempotent (env : CodecEnv) (fs : GalleryFS)
    (p : List String) (w : Int) (fmt : String) (dst mime : String)
    (fs1 : GalleryFS) (tr1 : List FSAct)
    (h : make_thumbnail env fs p w fmt = (.ok (dst, mime), fs1, tr1)) :
    make_thumbnail env fs1 p w fmt
      = (.ok (dst, mimeOf fmt), fs1, [.mkdirAct, .existsCheck]) ∧
    FSAct.openImage ∉ ([.mkdirAct, .existsCheck] : List FSAct) ∧
    FSAct.saveImage ∉ ([.mkdirAct, .existsCheck] : List FSAct) := by
  refine ⟨?_, by decide, by decide⟩
  cases hst : fs.statOf p with
  | none =>
    rw [make_thumbnail, hst] at h
    exact absurd (congrArg (fun t => t.1) h) (by simp)
  | some st =>
    rw [make_thumbnail, hst] at h
    simp only at h
    by_cases hhit :
        thumb_cache_path env.sha1 ⟨pathStr p, st.1, st.2⟩ w fmt
          ∈ (fs.mkdirp (thumbCacheDir env.sha1 ⟨pathStr p, st.1, st.2⟩ w fmt)).artifacts
    · rw [if_pos hhit] at h
      rw [Prod.mk.injEq, Prod.mk.injEq] at h
      obtain ⟨hres, hfs, htr⟩ := h
      injection hres with hres2
      rw [Prod.mk.injEq] at hres2
      obtain ⟨hdst, hmime⟩ := hres2
      subst hfs
      subst hdst
      have hstA : (fs.mkdirp
          (thumbCacheDir env.sha1 ⟨pathStr p, st.1, st.2⟩ w fmt)).statOf p = some st := by
        rw [GalleryFS.statOf, mkdirp_files]
        exact hst
      rw [make_thumbnail, hstA]
      simp only
      rw [mkdirp_of_mem (mkdirp_mem_dirs fs _)]
      rw [if_pos hhit]
    · rw [if_neg hhit] at h
      cases hdec : env.decodeOk p with
      | false =>
        rw [hdec, if_neg Bool.false_ne_true] at h
        exact absurd (congrArg (fun t => t.1) h) (by simp)
      | true =>
        rw [hdec, if_pos rfl] at h
        rw [Prod.mk.injEq, Prod.mk.injEq] at h
        obtain ⟨hres, hfs, htr⟩ := h
        injection hres with hres2
        rw [Prod.mk.injEq] at hres2
        obtain ⟨hdst, hmime⟩ := hres2
        subst hfs
        subst hdst
        have hstB : (GalleryFS.mk
            (fs.mkdirp (thumbCacheDir env.sha1 ⟨pathStr p, st.1, st.2⟩ w fmt)).files
            (thumb_cache_path env.sha1 ⟨pathStr p, st.1, st.2⟩ w fmt ::
              (fs.mkdirp (thumbCacheDir env.sha1 ⟨pathStr p, st.1, st.2⟩ w fmt)).artifacts)
            (fs.mkdirp (thumbCacheDir env.sha1 ⟨pathStr p, st.1, st.2⟩ w fmt)).dirs).statOf p
            = some st := by
          rw [GalleryFS.statOf]
          show (fs.mkdirp _).files.lookup p = some st
          rw [mkdirp_files]
          exact hst
        rw [make_thumbnail, hstB]
        simp only
        rw [mkdirp_of_mem (by exact mkdirp_mem_dirs fs _)]
        rw [if_pos (List.mem_cons_self _ _)]

/-- Witness for C9 at a concrete source: the second call after a generating
first call (digest computed with the identity hash) is a pure cache hit. -/
theorem claim_C9_thumbnail_idempotent_witness :
    make_thumbnail ⟨id, fun _ => true, false⟩
        ⟨[(["a.jpg"], 1, 2)],
         [".cache/thumbs//a/.jpg12thumb:256:webp/thumb.webp"],
         [".cache/thumbs//a/.jpg12thumb:256:webp"]⟩
        ["a.jpg"] 256 "webp"
      = (.ok (".cache/thumbs//a/.jpg12thumb:256:webp/thumb.webp", mimeOf "webp"),
         ⟨[(["a.jpg"], 1, 2)],
          [".cache/thumbs//a/.jpg12thumb:256:webp/thumb.webp"],
          [".cache/thumbs//a/.jpg12thumb:256:webp"]⟩,
         [.mkdirAct, .existsCheck]) :=
  (claim_C9_thumbnail_idempotent ⟨id, fun _ => true, false⟩
      ⟨[(["a.jpg"], 1, 2)], [], []⟩ ["a.jpg"] 256 "webp"
      ".cache/thumbs//a/.jpg12thumb:256:webp/thumb.webp" "image/webp"
      ⟨[(["a.jpg"], 1, 2)],
       [".cache/thumbs//a/.jpg12thumb:256:webp/thumb.webp"],
       [".cache/thumbs//a/.jpg12thumb:256:webp"]⟩
      [.mkdirAct, .existsCheck, .openImage, .saveImage] (by rfl)).1

/-! ### Content-address key determinism and separation (claim C6) -/

theorem string_eq_of_data {a b : String} (h : a.data = b.data) : a = b := by
  cases a
  cases b
  exact congrArg String.mk h

theorem shaInput_ne {src : SrcStat} {e1 e2 : String} (h : e1 ≠ e2) :
    shaInput src e1 ≠ shaInput src e2 := by
  intro he
  apply h
  rw [shaInput, shaInput] at he
  refine string_eq_of_data ?_
  have hd := congrArg String.data he
  simp only [String.data_append, List.append_assoc] at hd
  exact List.append_cancel_left (List.append_cancel_left (List.append_cancel_left hd))

theorem thumbExtra_ne_of_fmt {w : Int} {f1 f2 : String} (h : f1 ≠ f2) :
    thumbExtra w f1 ≠ thumbExtra w f2 := by
  intro he
  apply h
  rw [thumbExtra, thumbExtra] at he
  refine string_eq_of_data ?_
  have hd := congrArg String.data he
  simp only [String.data_append, List.append_assoc] at hd
  exact List.append_cancel_left (List.append_cancel_left (List.append_cancel_left hd))

theorem displayExtra_ne_of_fmt {m : Int} {f1 f2 : String} (h : f1 ≠ f2) :
    displayExtra m f1 ≠ displayExtra m f2 := by
  intro he
  apply h
  rw [displayExtra, displayExtra] at he
  refine string_eq_of_data ?_
  have hd := congrArg String.data he
  simp only [String.data_append, List.append_assoc] at hd
  exact List.append_cancel_left (List.append_cancel_left (List.append_cancel_left hd))

theorem thumbExtra_ne_displayExtra (w m : Int) (f1 f2 : String) :
    thumbExtra w f1 ≠ displayExtra m f2 := by
  intro he
  have hd := congrArg (fun s : String => s.data.take 1) he
  simp only [thumbExtra, displayExtra, String.data_append, List.append_assoc] at hd
  rw [List.take_append_of_le_length (by decide),
    List.take_append_of_le_length (by decide)] at hd
  exact absurd hd (by decide)

theorem thumbPath_ne_displayPath (sha1 : String → String) (s1 s2 : SrcStat)
    (w m : Int) (f1 f2 : String) :
    thumb_cache_path sha1 s1 w f1 ≠ display_cache_path sha1 s2 m f2 := by
  intro he
  have hd := congrArg (fun s : String => s.data.take 8) he
  simp only [thumb_cache_path, display_cache_path, thumbCacheDir, displayCacheDir,
    shardDir, CACHE_DIR_THUMBS, CACHE_DIR_DISPLAY, String.data_append,
    List.append_assoc] at hd
  rw [List.take_append_of_le_length (by decide),
    List.take_append_of_le_length (by decide)] at hd
  exact absurd hd (by decide)

/-- Claim C6: with the digest function injective on the streamed messages
(the collision-resistance assumption the design makes about SHA-1), the key
builder is deterministic in the stat identity; changing only the format
changes the digest (for the thumb and for the display namespace); and for a
source a thumbnail digest never equals a display digest, nor does a thumbnail
cache path ever equal a display cache path. -/
theorem claim_C6_key_determinism (sha1 : String → String)
    (hinj : Function.Injective sha1) :
    (∀ s1 s2 : SrcStat, s1.resolved = s2.resolved → s1.mtimeNs = s2.mtimeNs →
      s1.size = s2.size → ∀ extra, sha_for sha1 s1 extra = sha_for sha1 s2 extra) ∧
    (∀ src w f1 f2, f1 ≠ f2 →
      sha_for sha1 src (thumbExtra w f1) ≠ sha_for sha1 src (thumbExtra w f2)) ∧
    (∀ src m f1 f2, f1 ≠ f2 →
      sha_for sha1 src (displayExtra m f1) ≠ sha_for sha1 src (displayExtra m f2)) ∧
    (∀ src w m f1 f2,
      sha_for sha1 src (thumbExtra w f1) ≠ sha_for sha1 src (displayExtra m f2)) ∧
    (∀ s1 s2 w m f1 f2,
      thumb_cache_path sha1 s1 w f1 ≠ display_cache_path sha1 s2 m f2) := by
  refine ⟨?_, ?_, ?_, ?_, ?_⟩
  · intro s1 s2 h1 h2 h3 extra
    cases s1
    cases s2
    simp only at h1 h2 h3
    subst h1
    subst h2
    subst h3
    rfl
  · intro src w f1 f2 h
    exact hinj.ne (shaInput_ne (thumbExtra_ne_of_fmt h))
  · intro src m f1 f2 h
    exact hinj.ne (shaInput_ne (displayExtra_ne_of_fmt h))
  · intro src w m f1 f2
    exact hinj.ne (shaInput_ne (thumbExtra_ne_displayExtra w m f1 f2))
  · intro s1 s2 w m f1 f2
    exact thumbPath_ne_displayPath sha1 s1 s2 w m f1 f2

/-- Witness for C6 with the identity digest at concrete inputs. -/
theorem claim_C6_key_determinism_witness :
    sha_for id ⟨"/a.jpg", 1, 2⟩ (thumbExtra 256 "webp")
      ≠ sha_for id ⟨"/a.jpg", 1, 2⟩ (displayExtra 3840 "webp") :=
  (claim_C6_key_determinism id fun _ _ h => h).2.2.2.1 ⟨"/a.jpg", 1, 2⟩ 256 3840
    "webp" "webp"

/-! ### Prebuild failure containment (claim C4) -/

/-- Counterexample to C4 as stated: in an inventory whose middle source
probes fine (2000 x 1500) but fails during derivative generation, the
exception propagates out of the accumulation loop and the prebuild pass
aborts (the third source's count is never accumulated), instead of being
caught and counted as zero. -/
theorem claim_C4_counterexample :
    prebuild_all 1000 [256, 512, 1024] false false
      [⟨some (2000, 1500), fun _ _ => true, fun _ => true⟩,
       ⟨some (2000, 1500), fun _ _ => false, fun _ => true⟩,
       ⟨some (2000, 1500), fun _ _ => true, fun _ => true⟩]
      = Except.error () := rfl

theorem foldlM_except_ok {α β : Type} (f : β → α → Except Unit β) (l : List α)
    (h : ∀ b a, a ∈ l → ∃ b', f b a = .ok b') :
    ∀ b, ∃ b', l.foldlM f b = .ok b' := by
  induction l with
  | nil =>
    intro b
    exact ⟨b, rfl⟩
  | cons x xs ih =>
    intro b
    obtain ⟨b1, hb1⟩ := h b x (List.mem_cons_self x xs)
    obtain ⟨b2, hb2⟩ := ih (fun c a ha => h c a (List.mem_cons_of_mem _ ha)) b1
    refine ⟨b2, ?_⟩
    rw [List.foldlM_cons, hb1]
    simpa using hb2

theorem workGen_ok (s : PrebuildSrc) (sizes : List Int) (fmts : List String)
    (hgT : ∀ sz f, s.genThumbOk sz f = true) (hgD : ∀ f, s.genDisplayOk f = true) :
    ∃ n, workGen s sizes fmts = .ok n := by
  rw [workGen]
  apply foldlM_except_ok
  intro b fmt _
  obtain ⟨b1, hb1⟩ := foldlM_except_ok
    (fun m sz => if s.genThumbOk sz fmt then Except.ok (m + 1) else Except.error ())
    sizes (fun c sz _ => ⟨c + 1, by simp [hgT sz fmt]⟩) b
  refine ⟨b1 + 1, ?_⟩
  rw [hb1]
  simp only [hgD fmt, if_true]
  rfl

theorem workOne_ok (minLong : Int) (sizes : List Int) (fmts : List String)
    (s : PrebuildSrc)
    (hgT : ∀ sz f, s.genThumbOk sz f = true) (hgD : ∀ f, s.genDisplayOk f = true) :
    ∃ n, workOne minLong sizes fmts s = .ok n := by
  cases hp : s.probe with
  | none => exact ⟨0, by rw [workOne, hp]⟩
  | some wh =>
    obtain ⟨w, ht⟩ := wh
    by_cases hs : max w ht < minLong
    · refine ⟨0, ?_⟩
      rw [workOne, hp]
      show (if max w ht < minLong then Except.ok 0 else workGen s sizes fmts)
        = Except.ok 0
      rw [if_pos hs]
    · obtain ⟨n, hn⟩ := workGen_ok s sizes fmts hgT hgD
      refine ⟨n, ?_⟩
      rw [workOne, hp]
      show (if max w ht < minLong then Except.ok 0 else workGen s sizes fmts)
        = Except.ok n
      rw [if_neg hs]
      exact hn

/-- Amendment of C4 proved: a failure in the probing open (corrupt file at
open time) or a too-small source is caught and counted as zero artifacts,
and a pass whose sources all generate successfully completes with a count;
only a failure during derivative generation itself aborts the pass (as the
counterexample shows). -/
theorem claim_C4_prebuild_amended (minLong : Int) (sizes : List Int)
    (buildAvif avifEnabled : Bool) :
    (∀ s : PrebuildSrc, s.probe = none →
      workOne minLong sizes (prebuildFmts buildAvif avifEnabled) s = .ok 0) ∧
    (∀ imgs : List PrebuildSrc,
      (∀ s ∈ imgs, (∀ sz fmt, s.genThumbOk sz fmt = true) ∧
        ∀ fmt, s.genDisplayOk fmt = true) →
      ∃ n, prebuild_all minLong sizes buildAvif avifEnabled imgs = .ok n) := by
  constructor
  · intro s h
    rw [workOne, h]
  · intro imgs hall
    rw [prebuild_all]
    apply foldlM_except_ok
    intro total s hs
    obtain ⟨n, hn⟩ := workOne_ok minLong sizes (prebuildFmts buildAvif avifEnabled) s
      (hall s hs).1 (hall s hs).2
    refine ⟨total + n, ?_⟩
    rw [hn]
    rfl

/-- Witness for the amended C4: a probe failure is counted as zero. -/
theorem claim_C4_prebuild_amended_witness :
    workOne 1000 [256] (prebuildFmts false false)
      ⟨none, fun _ _ => true, fun _ => true⟩ = .ok 0 :=
  (claim_C4_prebuild_amended 1000 [256] false false).1
    ⟨none, fun _ _ => true, fun _ => true⟩ rfl

/-! ### Minimum-dimension filtering in listing and facets (claim C10) -/

/-- Claim C10: the listing and facet operations apply the minimum-dimension
threshold themselves: an entry whose summarized width and height are known
with a positive larger dimension under the minimum is omitted from the
listing (its item is `none` in the `filterMap` that builds the results) and
contributes nothing to facet aggregation; an entry with unknown dimensions
(coerced to zero) is retained by the listing (with empty filters) and
contributes its facets. -/
theorem claim_C10_min_dimension_filter (minLong : Int) (root : String)
    (req : ImagesReq) (entries : List (String × Meta)) :
    api_images minLong root req entries
      = entries.filterMap (apiImagesItem minLong root req) ∧
    (∀ p m w h, (summarize_meta m).ImageWidth = some w →
      (summarize_meta m).ImageHeight = some h →
      0 < max w h → max w h < minLong →
      apiImagesItem minLong root req (p, m) = none ∧
      ∀ acc, facetStep minLong acc (p, m) = acc) ∧
    (∀ p m, (summarize_meta m).ImageWidth = none →
      (summarize_meta m).ImageHeight = none →
      (req.season = "" → req.state = "" →
        apiImagesItem minLong root req (p, m) ≠ none) ∧
      ∀ acc, facetStep minLong acc (p, m) = facetAdd acc (summarize_meta m)) := by
  refine ⟨rfl, ?_, ?_⟩
  · intro p m w h hw hh hpos hlt
    have hne : max w h ≠ 0 := by omega
    constructor
    · simp [apiImagesItem, hw, hh, hne, hlt]
    · intro acc
      simp [facetStep, hw, hh, hne, hlt]
  · intro p m hw hh
    constructor
    · intro hs hst
      simp [apiImagesItem, hw, hh, hs, hst]
    · intro acc
      simp [facetStep, hw, hh]

/-- Witness for C10: a known 800x600 source is dropped by the listing item
function and by the facet step under minimum long side 1000. -/
theorem claim_C10_min_dimension_filter_witness :
    apiImagesItem 1000 "/photos" ⟨"", ""⟩
      ("/photos/small.jpg", { ImageWidth := some 800, ImageHeight := some 600 }) = none :=
  ((claim_C10_min_dimension_filter 1000 "/photos" ⟨"", ""⟩ []).2.1
    "/photos/small.jpg" { ImageWidth := some 800, ImageHeight := some 600 }
    800 600 (by decide) (by decide) (by decide) (by decide)).1
